import Mathlib

set_option maxRecDepth 100000

/-!
# Verification of the dark-channel-prior dehazing pipeline

Shallow embedding of `src/dark_channel_prior.py` (namespace `DCP`) and
`src/dark_channel_prior_uncommented.py` (namespace `DCPU`).

Conventions of the embedding:
* numpy `float64` values are modelled as rationals (`ℚ`); the literal
  `1e-6` is modelled as the exact rational `1/1000000`.
* An image (`h × w × 3` ndarray) is a height, a width and a pixel
  function; a single-channel map is a height, a width and a value
  function.  Values outside the declared bounds are junk and never
  inspected by the theorems.
* `cv2.erode` with a full `ws × ws` rectangular kernel, default anchor
  `(ws/2, ws/2)` and the default morphology border (`+∞` for erosion,
  so out-of-image positions never contribute to a minimum) computes, at
  each in-range pixel, the minimum of the source over the intersection
  of the window with the image.  The embedding computes the minimum of
  the source over the window with coordinates clamped into range
  (replicate semantics); for a rectangular window the set of clamped
  positions equals the window/image intersection, so the two agree on
  every in-range pixel.
* Calls that numpy/OpenCV reject with an exception are modelled with
  `Except Err`: `cv2.getStructuringElement` asserts a positive kernel
  size, `cv2.erode` asserts a non-empty source, `ndarray.reshape`
  asserts a matching element count, and `np.argpartition a kth`
  requires `kth < a.size`.
* `cv2.imshow` / `cv2.waitKey` / `cv2.destroyAllWindows` are display
  side effects with no influence on any returned array; they are not
  modelled.
-/

/-- Addition on ℚ, written on the numerator/denominator representation
so that concrete values evaluate inside proofs; `qadd_eq` below proves
it is `+`. -/
def qadd (a b : ℚ) : ℚ :=
  Rat.divInt (a.num * b.den + b.num * a.den) (a.den * b.den)

/-- Subtraction on ℚ (see `qsub_eq`). -/
def qsub (a b : ℚ) : ℚ :=
  Rat.divInt (a.num * b.den - b.num * a.den) (a.den * b.den)

/-- Multiplication on ℚ (see `qmul_eq`). -/
def qmul (a b : ℚ) : ℚ :=
  Rat.divInt (a.num * b.num) (a.den * b.den)

/-- Division on ℚ, with numpy's and Lean's shared convention
`x / 0 = 0` (see `qdiv_eq`). -/
def qdiv (a b : ℚ) : ℚ :=
  Rat.divInt (a.num * b.den) (a.den * b.num)

/-- One BGR pixel of a float image (numpy axis 2 of length 3). -/
structure Color where
  c0 : ℚ
  c1 : ℚ
  c2 : ℚ
deriving DecidableEq

/-- An `h × w × 3` float ndarray. -/
structure Image where
  height : ℕ
  width : ℕ
  pix : ℕ → ℕ → Color

/-- An `h × w` single-channel float ndarray. -/
structure GrayMap where
  height : ℕ
  width : ℕ
  val : ℕ → ℕ → ℚ

/-- One pixel of a `uint8` image. -/
structure Color8 where
  c0 : ℕ
  c1 : ℕ
  c2 : ℕ
deriving DecidableEq

/-- An `h × w × 3` `uint8` ndarray. -/
structure Image8 where
  height : ℕ
  width : ℕ
  pix : ℕ → ℕ → Color8

/-- The only error kind the embedded pipeline signals: an argument one
of the library calls rejects (spec taxonomy: `InvalidArgument`). -/
inductive Err where
  | invalidArgument
deriving DecidableEq

instance {ε α : Type} [DecidableEq ε] [DecidableEq α] :
    DecidableEq (Except ε α) := fun a b =>
  match a, b with
  | .ok a, .ok b => decidable_of_iff (a = b) (by simp)
  | .error a, .error b => decidable_of_iff (a = b) (by simp)
  | .ok _, .error _ => isFalse (by simp)
  | .error _, .ok _ => isFalse (by simp)

/-- Row-major listing of the in-range entries of a gray map (used to
state concrete results decidably). -/
def GrayMap.toList (m : GrayMap) : List (List ℚ) :=
  (List.range m.height).map fun i => (List.range m.width).map fun j => m.val i j

/-- Row-major listing of the in-range pixels of a float image. -/
def Image.toList (m : Image) : List (List Color) :=
  (List.range m.height).map fun i => (List.range m.width).map fun j => m.pix i j

/-- Row-major listing of the in-range pixels of a `uint8` image. -/
def Image8.toList (m : Image8) : List (List Color8) :=
  (List.range m.height).map fun i => (List.range m.width).map fun j => m.pix i j

/-- Minimum of the three channels of a pixel (`np.min(image, axis=2)`
at one pixel). -/
def Color.cmin (c : Color) : ℚ :=
  min c.c0 (min c.c1 c.c2)

/-- `np.min(image, axis=2)`. -/
def minChannel (img : Image) : GrayMap :=
  ⟨img.height, img.width, fun i j => (img.pix i j).cmin⟩

/-- Clamp an integer index into `[0, n-1]`. -/
def clampIdx (n : ℕ) (x : ℤ) : ℕ :=
  (min (max x 0) ((n : ℤ) - 1)).toNat

/-- Minimum of a list of rationals (`0` on the empty list, which the
pipeline never produces). -/
def listMin : List ℚ → ℚ
  | [] => 0
  | x :: xs => xs.foldl min x

/-- The values of a gray map over the `ws × ws` window anchored at
`(ws/2, ws/2)` around `(i, j)`, indices clamped into range (see the
header note on `cv2.erode` border handling). -/
def windowList (m : GrayMap) (ws : ℕ) (i j : ℕ) : List ℚ :=
  (List.range ws).flatMap fun (dy : ℕ) =>
    (List.range ws).map fun (dx : ℕ) =>
      m.val (clampIdx m.height ((i : ℤ) + (dy : ℤ) - ((ws / 2 : ℕ) : ℤ)))
            (clampIdx m.width ((j : ℤ) + (dx : ℤ) - ((ws / 2 : ℕ) : ℤ)))

/-- `cv2.erode` with the `ws × ws` rectangular structuring element. -/
def erode (m : GrayMap) (ws : ℕ) : GrayMap :=
  ⟨m.height, m.width, fun i j => listMin (windowList m ws i j)⟩

namespace DCP

/-- `get_dark_channel(image, window_size)` from
`src/dark_channel_prior.py` lines 8–18: channel minimum followed by
erosion with a `window_size × window_size` rectangle.
`cv2.getStructuringElement` rejects a non-positive size and
`cv2.erode` rejects an empty source, hence the two error branches. -/
def get_dark_channel (img : Image) (window_size : ℤ) : Except Err GrayMap :=
  if window_size < 1 then .error .invalidArgument
  else if img.height = 0 ∨ img.width = 0 then .error .invalidArgument
  else .ok (erode (minChannel img) window_size.toNat)

end DCP

/-- Row-major flattening of a gray map
(`get_dark_channel.reshape(num_pixels)`). -/
def GrayMap.flat (m : GrayMap) : List ℚ :=
  (List.range m.height).flatMap fun i => (List.range m.width).map fun j => m.val i j

/-- Row-major flattening of an image (`image.reshape(num_pixels, 3)`). -/
def Image.flat (img : Image) : List Color :=
  (List.range img.height).flatMap fun i => (List.range img.width).map fun j => img.pix i j

/-- Insert index `p` into an index list kept sorted by decreasing dark
value (one step of the deterministic selection that stands in for
`np.argpartition`; ties may be resolved by any deterministic rule, and
only the set of selected indices matters up to ties). -/
def insertByDark (dark : List ℚ) (p : ℕ) : List ℕ → List ℕ
  | [] => [p]
  | q :: rest =>
    if dark.getD q 0 ≤ dark.getD p 0 then p :: q :: rest
    else q :: insertByDark dark p rest

/-- All indices of `dark`, sorted by decreasing dark value. -/
def sortIdxDesc (dark : List ℚ) : List ℕ :=
  (List.range dark.length).foldr (insertByDark dark) []

/-- Indices of the `k` largest entries of `dark`
(`np.argpartition(-dark_vec, k)[:k]`: the first `k` positions of the
partitioned order hold the `k` largest values, in some order). -/
def selectTop (dark : List ℚ) (k : ℕ) : List ℕ :=
  (sortIdxDesc dark).take k

/-- Componentwise sum of a list of colors. -/
def colorSum (l : List Color) : Color :=
  l.foldl (fun a c => ⟨qadd a.c0 c.c0, qadd a.c1 c.c1, qadd a.c2 c.c2⟩) ⟨0, 0, 0⟩

/-- Componentwise scaling of a color. -/
def colorScale (q : ℚ) (c : Color) : Color :=
  ⟨qmul q c.c0, qmul q c.c1, qmul q c.c2⟩

namespace DCP

/-- `get_atmospheric_light(image, get_dark_channel)` from
`src/dark_channel_prior.py` lines 21–52.
`num_brightest = int(max(np.floor(num_pixels * 0.2), 1))` is
`max (n / 5) 1` over ℕ (floor of `n·0.2` equals `⌊n/5⌋` for every pixel
count an image can have).  `image.reshape(num_pixels, 3)` rejects a
pixel-count mismatch, and `np.argpartition(-dark_vec, num_brightest)`
rejects `num_brightest ≥ num_pixels`; the mean of the selected pixels'
colors is returned. -/
def get_atmospheric_light (img : Image) (dark : GrayMap) : Except Err Color :=
  let num_pixels := dark.height * dark.width
  let num_brightest := max (num_pixels / 5) 1
  if img.height * img.width ≠ num_pixels then .error .invalidArgument
  else if num_pixels ≤ num_brightest then .error .invalidArgument
  else
    let indices := selectTop (GrayMap.flat dark) num_brightest
    .ok (colorScale (qdiv 1 (num_brightest : ℚ))
          (colorSum (indices.map fun p => (Image.flat img).getD p ⟨0, 0, 0⟩)))

end DCP

/-- `image / (atmospheric_light + 1e-6)`: componentwise division of
every pixel by the atmospheric light plus the division guard
(`normalized_image` in the source). -/
def normalizedImage (img : Image) (A : Color) : Image :=
  ⟨img.height, img.width, fun i j =>
    ⟨qdiv (img.pix i j).c0 (qadd A.c0 (mkRat 1 1000000)),
     qdiv (img.pix i j).c1 (qadd A.c1 (mkRat 1 1000000)),
     qdiv (img.pix i j).c2 (qadd A.c2 (mkRat 1 1000000))⟩⟩

/-- `np.clip(x, lo, hi)` on one scalar. -/
def clipQ (x lo hi : ℚ) : ℚ :=
  min (max x lo) hi

namespace DCP

/-- `get_transmission_estimate(image, atmospheric_light, window_size,
omega)` from `src/dark_channel_prior.py` lines 55–70:
`np.clip(1 - omega * get_dark_channel(image / (atmospheric_light +
1e-6), window_size), 0.01, 1)`. -/
def get_transmission_estimate (img : Image) (A : Color) (window_size : ℤ)
    (omega : ℚ) : Except Err GrayMap :=
  (get_dark_channel (normalizedImage img A) window_size).map fun d =>
    ⟨d.height, d.width, fun i j => clipQ (qsub 1 (qmul omega (d.val i j))) (mkRat 1 100) 1⟩

end DCP

/-- `np.maximum(transmission, t0)` followed by
`J = (image - atmospheric_light) / transmission[:, :, np.newaxis] +
atmospheric_light` at every pixel. -/
def recoveredRaw (img : Image) (t : GrayMap) (A : Color) (t0 : ℚ) : Image :=
  ⟨img.height, img.width, fun i j =>
    let tv := max (t.val i j) t0
    ⟨qadd (qdiv (qsub (img.pix i j).c0 A.c0) tv) A.c0,
     qadd (qdiv (qsub (img.pix i j).c1 A.c1) tv) A.c1,
     qadd (qdiv (qsub (img.pix i j).c2 A.c2) tv) A.c2⟩⟩

/-- `J = np.clip(J * 255, 0, 255)` applied to `recoveredRaw`. -/
def recoveredClipped (img : Image) (t : GrayMap) (A : Color) (t0 : ℚ) : Image :=
  ⟨img.height, img.width, fun i j =>
    ⟨clipQ (qmul ((recoveredRaw img t A t0).pix i j).c0 255) 0 255,
     clipQ (qmul ((recoveredRaw img t A t0).pix i j).c1 255) 0 255,
     clipQ (qmul ((recoveredRaw img t A t0).pix i j).c2 255) 0 255⟩⟩

/-- `float64 → uint8` cast (`J.astype(np.uint8)`): truncation toward
zero then reduction mod 256; on the clipped range `[0, 255]` the source
feeds it, truncation coincides with the floor. -/
def toU8 (x : ℚ) : ℕ :=
  (Int.toNat ⌊x⌋) % 256

namespace DCP

/-- `get_recovered_image(image, transmission, atmospheric_light, t0)`
from `src/dark_channel_prior.py` lines 73–90 (default `t0 = 0.1`). -/
def get_recovered_image (img : Image) (t : GrayMap) (A : Color) (t0 : ℚ) :
    Image8 :=
  ⟨img.height, img.width, fun i j =>
    ⟨toU8 ((recoveredClipped img t A t0).pix i j).c0,
     toU8 ((recoveredClipped img t A t0).pix i j).c1,
     toU8 ((recoveredClipped img t A t0).pix i j).c2⟩⟩

end DCP

/-- `image.astype(np.float64) / 255` (and any componentwise scaling). -/
def Image.scale (img : Image) (q : ℚ) : Image :=
  ⟨img.height, img.width, fun i j =>
    ⟨qmul q (img.pix i j).c0, qmul q (img.pix i j).c1, qmul q (img.pix i j).c2⟩⟩

namespace DCP

/-- `dehaze(image, window_size=5, omega=0.95, t0=0.1)` from
`src/dark_channel_prior.py` lines 93–115 (parameters explicit). -/
def dehaze (img : Image) (window_size : ℤ) (omega t0 : ℚ) :
    Except Err Image8 := do
  let imgF := img.scale (mkRat 1 255)
  let dark ← get_dark_channel imgF window_size
  let A ← get_atmospheric_light imgF dark
  let t ← get_transmission_estimate imgF A window_size omega
  pure (get_recovered_image imgF t A t0)

end DCP

namespace DCPU

/-- `get_dark_channel(image, window_size)` from
`src/dark_channel_prior_uncommented.py` lines 8–18: channel minimum
followed by erosion with a `window_size × window_size` rectangle, with
the same library error behavior as `DCP.get_dark_channel`.  The
`cv2.imshow`/`cv2.waitKey`/`cv2.destroyAllWindows` calls display the
dark channel and do not affect the returned array; they are not
modelled. -/
def get_dark_channel (img : Image) (window_size : ℤ) : Except Err GrayMap :=
  if window_size < 1 then .error .invalidArgument
  else if img.height = 0 ∨ img.width = 0 then .error .invalidArgument
  else .ok (erode (minChannel img) window_size.toNat)

/-- `get_atmospheric_light(image, get_dark_channel)` from
`src/dark_channel_prior_uncommented.py` lines 21–35 (same computation
as the commented variant). -/
def get_atmospheric_light (img : Image) (dark : GrayMap) : Except Err Color :=
  let num_pixels := dark.height * dark.width
  let num_brightest := max (num_pixels / 5) 1
  if img.height * img.width ≠ num_pixels then .error .invalidArgument
  else if num_pixels ≤ num_brightest then .error .invalidArgument
  else
    let indices := selectTop (GrayMap.flat dark) num_brightest
    .ok (colorScale (qdiv 1 (num_brightest : ℚ))
          (colorSum (indices.map fun p => (Image.flat img).getD p ⟨0, 0, 0⟩)))

/-- `get_transmission_estimate(image, atmospheric_light, window_size,
omega)` from `src/dark_channel_prior_uncommented.py` lines 38–43. -/
def get_transmission_estimate (img : Image) (A : Color) (window_size : ℤ)
    (omega : ℚ) : Except Err GrayMap :=
  (get_dark_channel (normalizedImage img A) window_size).map fun d =>
    ⟨d.height, d.width, fun i j => clipQ (qsub 1 (qmul omega (d.val i j))) (mkRat 1 100) 1⟩

/-- `get_recovered_image(image, transmission, atmospheric_light, t0)`
from `src/dark_channel_prior_uncommented.py` lines 46–53. -/
def get_recovered_image (img : Image) (t : GrayMap) (A : Color) (t0 : ℚ) :
    Image8 :=
  ⟨img.height, img.width, fun i j =>
    ⟨toU8 ((recoveredClipped img t A t0).pix i j).c0,
     toU8 ((recoveredClipped img t A t0).pix i j).c1,
     toU8 ((recoveredClipped img t A t0).pix i j).c2⟩⟩

/-- `dehaze(image, window_size=15, omega=0.95, t0=0.1)` from
`src/dark_channel_prior_uncommented.py` lines 56–67 (parameters
explicit; only the default `window_size` differs from the commented
variant). -/
def dehaze (img : Image) (window_size : ℤ) (omega t0 : ℚ) :
    Except Err Image8 := do
  let imgF := img.scale (mkRat 1 255)
  let dark ← get_dark_channel imgF window_size
  let A ← get_atmospheric_light imgF dark
  let t ← get_transmission_estimate imgF A window_size omega
  pure (get_recovered_image imgF t A t0)

end DCPU

/-- The atmospheric-light computation exactly as claim C3 words it:
`k = max(⌊numPixels · topFraction⌋, 1)`, the `k` pixels of largest
dark-channel value, the elementwise mean of their original colors —
with the sampling fraction an explicit parameter (selection, mean, and
library error behavior as in `DCP.get_atmospheric_light`). -/
def atmosphericLightSpec (img : Image) (dark : GrayMap) (topFraction : ℚ) :
    Except Err Color :=
  let num_pixels := dark.height * dark.width
  let k := max (Nat.floor (qmul (num_pixels : ℚ) topFraction)) 1
  if img.height * img.width ≠ num_pixels then .error .invalidArgument
  else if num_pixels ≤ k then .error .invalidArgument
  else
    let indices := selectTop (GrayMap.flat dark) k
    .ok (colorScale (qdiv 1 (k : ℚ))
          (colorSum (indices.map fun p => (Image.flat img).getD p ⟨0, 0, 0⟩)))

/-!
## A store-passing view of the four stages (for the frame property)

Each ndarray live during a stage call is an entry of a `Store`
(flattened to a row-major list of rationals).  Every numpy/OpenCV
expression the four stage functions execute either reads its operands,
returns a view (`reshape`), or allocates a fresh output array — none of
them is an in-place write (`out=`, augmented assignment or slice
assignment never occur in the source) — so each stage appends its
intermediate and final arrays to the store and writes to no existing
entry.  Results are the index of the allocated output.
-/

/-- A flattened ndarray. -/
abbrev Arr := List ℚ

/-- All arrays live during a stage call. -/
abbrev Store := List Arr

/-- Flatten a 3-vector color. -/
def encodeColor (c : Color) : Arr := [c.c0, c.c1, c.c2]

/-- Read a 3-vector color back from a flattened array. -/
def decodeColor (a : Arr) : Color := ⟨a.getD 0 0, a.getD 1 0, a.getD 2 0⟩

/-- Flatten a gray map row-major. -/
def encodeGray (m : GrayMap) : Arr := m.flat

/-- Read an `h × w` gray map back from a flattened array. -/
def decodeGray (h w : ℕ) (a : Arr) : GrayMap :=
  ⟨h, w, fun i j => a.getD (i * w + j) 0⟩

/-- Flatten an image row-major, channels innermost. -/
def encodeImage (img : Image) : Arr :=
  (Image.flat img).flatMap encodeColor

/-- Read an `h × w × 3` image back from a flattened array. -/
def decodeImage (h w : ℕ) (a : Arr) : Image :=
  ⟨h, w, fun i j =>
    ⟨a.getD (3 * (i * w + j)) 0, a.getD (3 * (i * w + j) + 1) 0,
     a.getD (3 * (i * w + j) + 2) 0⟩⟩

/-- Flatten a `uint8` image row-major (values cast back to ℚ). -/
def encodeImage8 (m : Image8) : Arr :=
  (List.range m.height).flatMap fun i => (List.range m.width).flatMap fun j =>
    [((m.pix i j).c0 : ℚ), ((m.pix i j).c1 : ℚ), ((m.pix i j).c2 : ℚ)]

/-- `get_dark_channel` reading its image from a store: `np.min(image,
axis=2)` allocates the channel-minimum map and `cv2.erode` allocates
the eroded map (aborted when the library rejects the arguments); the
input array is only read. -/
def get_dark_channel_st (s : Store) (h w imgIdx : ℕ) (window_size : ℤ) :
    Store × Except Err ℕ :=
  let img := decodeImage h w (s.getD imgIdx [])
  (s ++ encodeGray (minChannel img) ::
      (match DCP.get_dark_channel img window_size with
       | .error _ => []
       | .ok m => [encodeGray m]),
   (DCP.get_dark_channel img window_size).map fun _ => s.length + 1)

/-- `get_atmospheric_light` reading image and dark channel from a
store: `reshape` yields views (no allocation, no write), the selected
mean is allocated as a fresh 3-vector; the inputs are only read. -/
def get_atmospheric_light_st (s : Store) (h w imgIdx darkIdx : ℕ) :
    Store × Except Err ℕ :=
  let img := decodeImage h w (s.getD imgIdx [])
  let dark := decodeGray h w (s.getD darkIdx [])
  (s ++ (match DCP.get_atmospheric_light img dark with
         | .error _ => []
         | .ok A => [encodeColor A]),
   (DCP.get_atmospheric_light img dark).map fun _ => s.length)

/-- `get_transmission_estimate` reading image and atmospheric light
from a store: allocates the normalized image, runs the dark-channel
stage on it, then allocates `1 - omega * dark` and its clip; the inputs
are only read. -/
def get_transmission_estimate_st (s : Store) (h w imgIdx alIdx : ℕ)
    (window_size : ℤ) (omega : ℚ) : Store × Except Err ℕ :=
  let img := decodeImage h w (s.getD imgIdx [])
  let A := decodeColor (s.getD alIdx [])
  let s1 := s ++ [encodeImage (normalizedImage img A)]
  match get_dark_channel_st s1 h w s.length window_size with
  | (s2, .error e) => (s2, .error e)
  | (s2, .ok dIdx) =>
    let d := decodeGray h w (s2.getD dIdx [])
    (s2 ++ [encodeGray ⟨h, w, fun i j => qsub 1 (qmul omega (d.val i j))⟩,
            encodeGray ⟨h, w, fun i j => clipQ (qsub 1 (qmul omega (d.val i j))) (mkRat 1 100) 1⟩],
     .ok (s2.length + 1))

/-- `get_recovered_image` reading image, transmission map and
atmospheric light from a store: allocates `np.maximum(transmission,
t0)` (the source rebinds its local name only), the raw inversion `J`,
the clipped `J` and the `uint8` cast; the inputs are only read. -/
def get_recovered_image_st (s : Store) (h w imgIdx tIdx alIdx : ℕ) (t0 : ℚ) :
    Store × ℕ :=
  let img := decodeImage h w (s.getD imgIdx [])
  let t := decodeGray h w (s.getD tIdx [])
  let A := decodeColor (s.getD alIdx [])
  (s ++ [encodeGray ⟨h, w, fun i j => max (t.val i j) t0⟩,
         encodeImage (recoveredRaw img t A t0),
         encodeImage (recoveredClipped img t A t0),
         encodeImage8 (DCP.get_recovered_image img t A t0)],
   s.length + 3)

/-!
## Concrete inputs used by counterexamples and witnesses
-/

/-- A 1×1 image with unit pixel (counterexample input for the
transmission clamp floor). -/
def imgC2 : Image := ⟨1, 1, fun _ _ => ⟨1, 1, 1⟩⟩

/-- Unit atmospheric light. -/
def AC2 : Color := ⟨1, 1, 1⟩

/-- A 1×10 image whose first two pixels are brighter than the rest. -/
def imgC3 : Image :=
  ⟨1, 10, fun _ j =>
    if j = 0 then ⟨10, 10, 10⟩ else if j = 1 then ⟨8, 8, 8⟩ else ⟨0, 0, 0⟩⟩

/-- A dark-channel map matching `imgC3`. -/
def darkC3 : GrayMap :=
  ⟨1, 10, fun _ j => if j = 0 then 10 else if j = 1 then 8 else 0⟩

/-- The uniform 4×4 image with every pixel `(50,50,50)`. -/
def img50 : Image := ⟨4, 4, fun _ _ => ⟨50, 50, 50⟩⟩

/-- The uniform transmission value of the 4×4 scenario:
`1 - 0.95 · (50/255)/((50/255) + 1e-6)`, inside the clip range. -/
def tC5 : ℚ := mkRat 500051 10000051

/-- The 2×2 image with one white pixel and three black pixels. -/
def imgC7 : Image :=
  ⟨2, 2, fun i j => if i = 0 ∧ j = 0 then ⟨255, 255, 255⟩ else ⟨0, 0, 0⟩⟩

/-- A 1×1 image around an arbitrary pixel. -/
def singlePixelImage (c : Color) : Image := ⟨1, 1, fun _ _ => c⟩

/-- A 2×2 image with one darker corner (witness input for the window
monotonicity). -/
def imgW6 : Image :=
  ⟨2, 2, fun i j => if i = 0 ∧ j = 0 then ⟨1, 2, 3⟩ else ⟨5, 6, 7⟩⟩

/-- Witness inputs for the recovery saturation: huge channel spread. -/
def imgW1 : Image := ⟨1, 1, fun _ _ => ⟨10000, -10000, mkRat 1 2⟩⟩

/-- A transmission map far below every floor. -/
def tW1 : GrayMap := ⟨1, 1, fun _ _ => mkRat 1 1000000000⟩

/-- Mid-gray atmospheric light. -/
def AW1 : Color := ⟨mkRat 1 2, mkRat 1 2, mkRat 1 2⟩

/-- A three-array store: an image, a gray map and a color vector. -/
def stC9 : Store :=
  [encodeImage (singlePixelImage ⟨1, 2, 3⟩), encodeGray ⟨1, 1, fun _ _ => mkRat 1 2⟩,
   encodeColor ⟨1, 1, 1⟩]

/-!
## Helper lemmas

First, the numerator/denominator renderings of the field operations
are the field operations.
-/

lemma qadd_eq (a b : ℚ) : qadd a b = a + b := by
  conv_rhs => rw [← Rat.num_divInt_den a, ← Rat.num_divInt_den b,
    Rat.divInt_add_divInt _ _ (Int.ofNat_ne_zero.mpr a.den_nz)
      (Int.ofNat_ne_zero.mpr b.den_nz)]
  unfold qadd; norm_cast

lemma qsub_eq (a b : ℚ) : qsub a b = a - b := by
  conv_rhs => rw [← Rat.num_divInt_den a, ← Rat.num_divInt_den b,
    Rat.divInt_sub_divInt _ _ (Int.ofNat_ne_zero.mpr a.den_nz)
      (Int.ofNat_ne_zero.mpr b.den_nz)]
  unfold qsub; norm_cast

lemma qmul_eq (a b : ℚ) : qmul a b = a * b := by
  conv_rhs => rw [← Rat.num_divInt_den a, ← Rat.num_divInt_den b,
    Rat.divInt_mul_divInt']
  unfold qmul; norm_cast

lemma qdiv_eq (a b : ℚ) : qdiv a b = a / b := by
  conv_rhs => rw [div_eq_mul_inv, ← Rat.num_divInt_den a, Rat.inv_def',
    Rat.divInt_mul_divInt']
  unfold qdiv; norm_cast

lemma mkRat_eq (n : ℤ) (d : ℕ) : (mkRat n d : ℚ) = (n : ℚ) / (d : ℚ) := by
  rw [Rat.mkRat_eq_divInt, Rat.divInt_eq_div]; norm_cast

lemma foldl_min_le_init (xs : List ℚ) (a : ℚ) : xs.foldl min a ≤ a := by
  induction xs generalizing a with
  | nil => exact le_refl a
  | cons x xs ih =>
    rw [List.foldl_cons]
    exact le_trans (ih (min a x)) (min_le_left a x)

lemma foldl_min_le_mem (xs : List ℚ) (a x : ℚ) (hx : x ∈ xs) :
    xs.foldl min a ≤ x := by
  induction xs generalizing a with
  | nil => cases hx
  | cons y ys ih =>
    rw [List.foldl_cons]
    rcases List.mem_cons.mp hx with h | h
    · subst h
      exact le_trans (foldl_min_le_init ys (min a x)) (min_le_right a x)
    · exact ih (min a y) h

lemma listMin_le {l : List ℚ} {x : ℚ} (hx : x ∈ l) : listMin l ≤ x := by
  cases l with
  | nil => cases hx
  | cons a xs =>
    show xs.foldl min a ≤ x
    rcases List.mem_cons.mp hx with h | h
    · exact h ▸ foldl_min_le_init xs a
    · exact foldl_min_le_mem xs a x h

lemma foldl_min_mem (xs : List ℚ) (a : ℚ) :
    xs.foldl min a = a ∨ xs.foldl min a ∈ xs := by
  induction xs generalizing a with
  | nil => exact Or.inl rfl
  | cons x xs ih =>
    rw [List.foldl_cons]
    rcases ih (min a x) with h | h
    · rcases min_choice a x with hm | hm
      · exact Or.inl (by rw [h, hm])
      · exact Or.inr (by rw [h, hm]; exact List.mem_cons_self x xs)
    · exact Or.inr (List.mem_cons_of_mem x h)

lemma listMin_mem {l : List ℚ} (h : l ≠ []) : listMin l ∈ l := by
  cases l with
  | nil => exact absurd rfl h
  | cons a xs =>
    show xs.foldl min a ∈ a :: xs
    rcases foldl_min_mem xs a with h' | h'
    · rw [h']; exact List.mem_cons_self a xs
    · exact List.mem_cons_of_mem a h'

lemma windowList_ne_nil {m : GrayMap} {ws i j : ℕ} (h : 1 ≤ ws) :
    windowList m ws i j ≠ [] := by
  apply List.ne_nil_of_mem (a :=
    m.val (clampIdx m.height ((i : ℤ) + ((0 : ℕ) : ℤ) - ((ws / 2 : ℕ) : ℤ)))
          (clampIdx m.width ((j : ℤ) + ((0 : ℕ) : ℤ) - ((ws / 2 : ℕ) : ℤ))))
  exact List.mem_flatMap.mpr ⟨0, List.mem_range.mpr h,
    List.mem_map.mpr ⟨0, List.mem_range.mpr h, rfl⟩⟩

lemma mem_windowList_of_le {m : GrayMap} {r₁ r₂ i j : ℕ} (h : r₁ ≤ r₂) {x : ℚ}
    (hx : x ∈ windowList m (2 * r₁ + 1) i j) :
    x ∈ windowList m (2 * r₂ + 1) i j := by
  rcases List.mem_flatMap.mp hx with ⟨dy, hdy, hx'⟩
  rcases List.mem_map.mp hx' with ⟨dx, hdx, rfl⟩
  rw [List.mem_range] at hdy hdx
  refine List.mem_flatMap.mpr ⟨dy + (r₂ - r₁), List.mem_range.mpr (by omega),
    List.mem_map.mpr ⟨dx + (r₂ - r₁), List.mem_range.mpr (by omega), ?_⟩⟩
  have e1 : (2 * r₁ + 1) / 2 = r₁ := by omega
  have e2 : (2 * r₂ + 1) / 2 = r₂ := by omega
  rw [e1, e2]
  have ey : (i : ℤ) + ((dy + (r₂ - r₁) : ℕ) : ℤ) - (r₂ : ℤ)
      = (i : ℤ) + (dy : ℤ) - (r₁ : ℤ) := by
    push_cast [Nat.cast_sub h]; ring
  have ex : (j : ℤ) + ((dx + (r₂ - r₁) : ℕ) : ℤ) - (r₂ : ℤ)
      = (j : ℤ) + (dx : ℤ) - (r₁ : ℤ) := by
    push_cast [Nat.cast_sub h]; ring
  rw [ey, ex]

lemma erode_anti (m : GrayMap) {r₁ r₂ : ℕ} (h : r₁ ≤ r₂) (i j : ℕ) :
    (erode m (2 * r₂ + 1)).val i j ≤ (erode m (2 * r₁ + 1)).val i j := by
  have hmem : listMin (windowList m (2 * r₁ + 1) i j) ∈
      windowList m (2 * r₁ + 1) i j :=
    listMin_mem (windowList_ne_nil (by omega))
  exact listMin_le (mem_windowList_of_le h hmem)

lemma clipQ_le_hi (x lo hi : ℚ) : clipQ x lo hi ≤ hi := min_le_right _ _

lemma lo_le_clipQ (x lo hi : ℚ) (h : lo ≤ hi) : lo ≤ clipQ x lo hi :=
  le_min (le_max_right x lo) h

lemma toU8_of_clipped {y : ℚ} (_h0 : 0 ≤ y) (h255 : y ≤ 255) :
    toU8 y = Int.toNat ⌊y⌋ ∧ toU8 y ≤ 255 := by
  have hfl : ⌊y⌋ ≤ 255 := by
    have := Int.floor_le_floor h255
    simpa using this
  have hlt : Int.toNat ⌊y⌋ < 256 := by omega
  exact ⟨Nat.mod_eq_of_lt hlt, by unfold toU8; omega⟩

lemma natFloor_mul_fifth (n : ℕ) :
    Nat.floor ((n : ℚ) * (1 / 5)) = n / 5 := by
  rw [mul_one_div]
  rw [show (5 : ℚ) = ((5 : ℕ) : ℚ) by norm_num]
  rw [Nat.floor_div_nat, Nat.floor_natCast]

lemma natFloor_qmul_fifth (n : ℕ) :
    Nat.floor (qmul (n : ℚ) (1 / 5)) = n / 5 := by
  rw [qmul_eq]; exact natFloor_mul_fifth n

lemma store_getD_append (s u : Store) (n : ℕ) (h : n < s.length) :
    (s ++ u).getD n [] = s.getD n [] := by
  simp [List.getD_eq_getElem?_getD, List.getElem?_append, h]

/-!
## Claim theorems
-/

/-- C4: `get_dark_channel` signals `InvalidArgument` exactly when the
window size is non-positive or the image is empty; on every input
satisfying the constraints it succeeds with the eroded channel-minimum
map (no silent correction, no other failure). -/
theorem dark_channel_invalid_argument_iff (img : Image) (window_size : ℤ) :
    (DCP.get_dark_channel img window_size = .error .invalidArgument ↔
      window_size < 1 ∨ img.height = 0 ∨ img.width = 0) ∧
    (¬(window_size < 1 ∨ img.height = 0 ∨ img.width = 0) →
      DCP.get_dark_channel img window_size =
        .ok (erode (minChannel img) window_size.toNat)) := by
  unfold DCP.get_dark_channel
  split_ifs with h1 h2 <;> simp_all

/-- C7: on the 2×2 image with one white and three black pixels, with
the dark channel taken with window size 1 (so the white pixel has the
unique largest dark value and the hard-coded top fraction selects
exactly that one pixel), the atmospheric-light estimate is
`(255,255,255)`. -/
theorem atmospheric_light_white_pixel :
    (DCP.get_dark_channel imgC7 1).bind (DCP.get_atmospheric_light imgC7)
      = .ok ⟨255, 255, 255⟩ := by
  decide

/-- C3 counterexample: the estimator uses the hard-coded fraction 0.2,
not a configurable `topFraction` defaulting to 0.001 — on a 1×10 image
it averages the 2 brightest pixels, while the claimed formula at
0.001 picks only the single brightest one, and the results differ. -/
theorem atmospheric_light_topfraction_counterexample :
    DCP.get_atmospheric_light imgC3 darkC3 = .ok ⟨9, 9, 9⟩ ∧
    atmosphericLightSpec imgC3 darkC3 (1 / 1000) = .ok ⟨10, 10, 10⟩ ∧
    DCP.get_atmospheric_light imgC3 darkC3 ≠
      atmosphericLightSpec imgC3 darkC3 (1 / 1000) := by
  rw [show (1 / 1000 : ℚ) = mkRat 1 1000 from by rw [mkRat_eq]; norm_num]
  decide

/-- C3 (amended): the estimator computes
`k = max(floor(numPixels · topFraction), 1)`, selects the `k` pixels of
largest dark-channel value and returns the mean of their colors, with
`topFraction` the hard-coded constant 0.2 — i.e. it coincides with the
claimed formula instantiated at `topFraction = 1/5` on every input. -/
theorem atmospheric_light_matches_spec (img : Image) (dark : GrayMap) :
    DCP.get_atmospheric_light img dark = atmosphericLightSpec img dark (1 / 5) := by
  unfold DCP.get_atmospheric_light atmosphericLightSpec
  simp only [natFloor_qmul_fifth]

/-- C2 counterexample: the transmission clamp floor is the hard-coded
0.01, not a configurable floor defaulting to 0.1 — on a 1×1 unit image
with unit atmospheric light the returned transmission value is
`50001/1000001 ≈ 0.05`, strictly below 0.1. -/
theorem transmission_floor_counterexample :
    (DCP.get_transmission_estimate imgC2 AC2 1 (19 / 20)).map GrayMap.toList
      = .ok [[(50001 / 1000001 : ℚ)]] ∧
    (50001 / 1000001 : ℚ) < 1 / 10 := by
  rw [show (19 / 20 : ℚ) = mkRat 19 20 from by rw [mkRat_eq]; norm_num,
    show (50001 / 1000001 : ℚ) = mkRat 50001 1000001 from by rw [mkRat_eq]; norm_num,
    show (1 / 10 : ℚ) = mkRat 1 10 from by rw [mkRat_eq]; norm_num]
  decide

/-- C2 (amended): for every image, atmospheric light, positive window
size and omega in `[0,1]`, the transmission estimator succeeds and
returns `1 - omega ·` (dark channel of the image normalized by
`atmosphericLight + 1e-6`) clamped into `[0.01, 1]`, the floor being
the hard-coded constant 0.01; hence every value lies in `[0.01, 1]`. -/
theorem transmission_in_clamp_range (img : Image) (A : Color)
    (window_size : ℤ) (omega : ℚ) (hws : 1 ≤ window_size)
    (hh : 1 ≤ img.height) (hw : 1 ≤ img.width)
    (_hom : 0 ≤ omega ∧ omega ≤ 1) :
    ∃ m, DCP.get_transmission_estimate img A window_size omega = .ok m ∧
      m.height = img.height ∧ m.width = img.width ∧
      ∀ i j, m.val i j =
          clipQ (1 - omega *
              (erode (minChannel (normalizedImage img A)) window_size.toNat).val i j)
            (1 / 100) 1 ∧
        1 / 100 ≤ m.val i j ∧ m.val i j ≤ 1 := by
  unfold DCP.get_transmission_estimate DCP.get_dark_channel
  have c1 : ¬(window_size < 1) := by omega
  have c2 : ¬((normalizedImage img A).height = 0 ∨ (normalizedImage img A).width = 0) := by
    unfold normalizedImage; dsimp; omega
  rw [if_neg c1, if_neg c2]
  have hm : (mkRat 1 100 : ℚ) = 1 / 100 := by rw [mkRat_eq]; norm_num
  refine ⟨_, rfl, rfl, rfl, fun i j => ⟨?_, ?_, ?_⟩⟩
  · show clipQ _ _ _ = _
    rw [qsub_eq, qmul_eq, hm]
  · show (1 / 100 : ℚ) ≤ clipQ _ _ _
    rw [← hm]
    exact lo_le_clipQ _ _ _ (by rw [hm]; norm_num)
  · exact clipQ_le_hi _ _ _

/-- C2 witness: the amended range theorem applied to the concrete 1×1
input. -/
theorem transmission_in_clamp_range_witness :
    ((1 : ℤ) ≤ 1 ∧ 1 ≤ imgC2.height ∧ 1 ≤ imgC2.width ∧
      (0 ≤ (19 / 20 : ℚ) ∧ (19 / 20 : ℚ) ≤ 1)) ∧
    (∃ m, DCP.get_transmission_estimate imgC2 AC2 1 (19 / 20) = .ok m ∧
      m.height = imgC2.height ∧ m.width = imgC2.width ∧
      ∀ i j, m.val i j =
          clipQ (1 - (19 / 20) *
              (erode (minChannel (normalizedImage imgC2 AC2)) (1 : ℤ).toNat).val i j)
            (1 / 100) 1 ∧
        1 / 100 ≤ m.val i j ∧ m.val i j ≤ 1) :=
  ⟨⟨le_refl 1, by decide, by decide, by norm_num⟩,
    transmission_in_clamp_range imgC2 AC2 1 (19 / 20) (by decide) (by decide)
      (by decide) (by norm_num)⟩

/-- C1: for matching dimensions and `minTransmission` in `(0,1]`, every
channel of every pixel of the clipped recovery lies in `[0, 255]`, and
the `uint8` output is exactly its floor — the cast never wraps — so
every output channel is an 8-bit value at most 255; extreme
pre-clamp values saturate at the bounds. -/
theorem recovered_image_saturates (img : Image) (t : GrayMap) (A : Color)
    (t0 : ℚ) (_hdim : t.height = img.height ∧ t.width = img.width)
    (_ht0 : 0 < t0 ∧ t0 ≤ 1) (i j : ℕ) :
    (0 ≤ ((recoveredClipped img t A t0).pix i j).c0 ∧
      ((recoveredClipped img t A t0).pix i j).c0 ≤ 255) ∧
    (0 ≤ ((recoveredClipped img t A t0).pix i j).c1 ∧
      ((recoveredClipped img t A t0).pix i j).c1 ≤ 255) ∧
    (0 ≤ ((recoveredClipped img t A t0).pix i j).c2 ∧
      ((recoveredClipped img t A t0).pix i j).c2 ≤ 255) ∧
    (DCP.get_recovered_image img t A t0).pix i j =
      ⟨Int.toNat ⌊((recoveredClipped img t A t0).pix i j).c0⌋,
       Int.toNat ⌊((recoveredClipped img t A t0).pix i j).c1⌋,
       Int.toNat ⌊((recoveredClipped img t A t0).pix i j).c2⌋⟩ ∧
    ((DCP.get_recovered_image img t A t0).pix i j).c0 ≤ 255 ∧
    ((DCP.get_recovered_image img t A t0).pix i j).c1 ≤ 255 ∧
    ((DCP.get_recovered_image img t A t0).pix i j).c2 ≤ 255 := by
  have h0 : ∀ x : ℚ, 0 ≤ clipQ x 0 255 := fun x => lo_le_clipQ x 0 255 (by norm_num)
  have h255 : ∀ x : ℚ, clipQ x 0 255 ≤ 255 := fun x => clipQ_le_hi x 0 255
  simp only [DCP.get_recovered_image, recoveredClipped]
  refine ⟨⟨h0 _, h255 _⟩, ⟨h0 _, h255 _⟩, ⟨h0 _, h255 _⟩, ?_, ?_, ?_, ?_⟩
  · rw [(toU8_of_clipped (h0 _) (h255 _)).1, (toU8_of_clipped (h0 _) (h255 _)).1,
      (toU8_of_clipped (h0 _) (h255 _)).1]
  · exact (toU8_of_clipped (h0 _) (h255 _)).2
  · exact (toU8_of_clipped (h0 _) (h255 _)).2
  · exact (toU8_of_clipped (h0 _) (h255 _)).2

/-- C1 witness: saturation at a concrete extreme input (huge positive
and negative channels, transmission far below every floor). -/
theorem recovered_image_saturates_witness :
    ((tW1.height = imgW1.height ∧ tW1.width = imgW1.width) ∧
      (0 < (1 / 10 : ℚ) ∧ (1 / 10 : ℚ) ≤ 1)) ∧
    ((DCP.get_recovered_image imgW1 tW1 AW1 (1 / 10)).pix 0 0).c0 ≤ 255 ∧
    ((DCP.get_recovered_image imgW1 tW1 AW1 (1 / 10)).pix 0 0).c1 ≤ 255 ∧
    ((DCP.get_recovered_image imgW1 tW1 AW1 (1 / 10)).pix 0 0).c2 ≤ 255 :=
  ⟨⟨⟨rfl, rfl⟩, by norm_num⟩,
    (recovered_image_saturates imgW1 tW1 AW1 (1 / 10) ⟨rfl, rfl⟩ (by norm_num)
      0 0).2.2.2.2⟩

/-- C6: enlarging the erosion radius can only lower the dark channel:
whenever both calls succeed, the map at window size `2*r₂+1` is
pointwise at most the map at window size `2*r₁+1` for `r₁ ≤ r₂`. -/
theorem dark_channel_antitone_in_radius (img : Image) (r₁ r₂ : ℕ)
    (hr : r₁ ≤ r₂) (hh : 1 ≤ img.height) (hw : 1 ≤ img.width)
    (m₁ m₂ : GrayMap)
    (h₁ : DCP.get_dark_channel img ((2 * r₁ + 1 : ℕ) : ℤ) = .ok m₁)
    (h₂ : DCP.get_dark_channel img ((2 * r₂ + 1 : ℕ) : ℤ) = .ok m₂)
    (i j : ℕ) (_hi : i < img.height) (_hj : j < img.width) :
    m₂.val i j ≤ m₁.val i j := by
  have c1 : ¬(((2 * r₁ + 1 : ℕ) : ℤ) < 1) := by
    push_cast; omega
  have c2 : ¬(((2 * r₂ + 1 : ℕ) : ℤ) < 1) := by
    push_cast; omega
  have c3 : ¬(img.height = 0 ∨ img.width = 0) := by omega
  unfold DCP.get_dark_channel at h₁ h₂
  rw [if_neg c1, if_neg c3] at h₁
  rw [if_neg c2, if_neg c3] at h₂
  rw [Int.toNat_natCast] at h₁ h₂
  have e₁ := Except.ok.inj h₁
  have e₂ := Except.ok.inj h₂
  rw [← e₁, ← e₂]
  exact erode_anti (minChannel img) hr i j

/-- C6 witness: radii 0 and 1 on a concrete 2×2 image. -/
theorem dark_channel_antitone_in_radius_witness :
    ((0 : ℕ) ≤ 1 ∧ 1 ≤ imgW6.height ∧ 1 ≤ imgW6.width ∧
      0 < imgW6.height ∧ 0 < imgW6.width) ∧
    (erode (minChannel imgW6) 3).val 0 0 ≤ (erode (minChannel imgW6) 1).val 0 0 :=
  ⟨by decide,
    dark_channel_antitone_in_radius imgW6 0 1 (by decide) (by decide) (by decide)
      (erode (minChannel imgW6) 1) (erode (minChannel imgW6) 3)
      rfl rfl 0 0 (by decide) (by decide)⟩

/-- C8: with the same explicitly supplied window size, omega and `t0`,
the two scripts' `dehaze` functions return identical recovered images —
the near-duplicate variants differ only in their default parameter
values (5 vs 15) and display side effects, not in the function they
compute. -/
theorem dehaze_variants_agree (img : Image) (window_size : ℤ) (omega t0 : ℚ) :
    DCPU.dehaze img window_size omega t0 = DCP.dehaze img window_size omega t0 :=
  rfl

/-- C10: on every 1×1 input image the pipeline fails:
`num_brightest = max(floor(1·0.2), 1) = 1` equals the pixel count, so
`np.argpartition` is called with an out-of-range `kth` and raises, and
`dehaze` (with its default `window_size=5`, `omega=0.95`, `t0=0.1`)
propagates the error for every pixel value. -/
theorem dehaze_single_pixel_fails (c : Color) :
    DCP.dehaze (singlePixelImage c) 5 (19 / 20) (1 / 10)
      = .error .invalidArgument := by
  unfold DCP.dehaze DCP.get_dark_channel DCP.get_atmospheric_light
  simp [singlePixelImage, Image.scale, erode, minChannel, Bind.bind, Except.bind]

/-- C5: on the uniform 4×4 image with every pixel `(50,50,50)` and
window radius 1 (window size 3): the dark channel is uniformly 50, the
atmospheric-light estimate is `(50,50,50)`, the transmission map the
pipeline computes is uniform across the image, and `dehaze` returns
the original image exactly. -/
theorem uniform_image_pipeline_identity :
    (DCP.get_dark_channel img50 3).map GrayMap.toList
      = .ok (List.replicate 4 (List.replicate 4 (50 : ℚ))) ∧
    (DCP.get_dark_channel img50 3).bind (DCP.get_atmospheric_light img50)
      = .ok ⟨50, 50, 50⟩ ∧
    ((DCP.get_dark_channel (img50.scale (mkRat 1 255)) 3).bind fun dark =>
        (DCP.get_atmospheric_light (img50.scale (mkRat 1 255)) dark).bind fun A =>
          DCP.get_transmission_estimate (img50.scale (mkRat 1 255)) A 3
            (19 / 20)).map GrayMap.toList
      = .ok (List.replicate 4 (List.replicate 4 tC5)) ∧
    (DCP.dehaze img50 3 (19 / 20) (1 / 10)).map Image8.toList
      = .ok (List.replicate 4 (List.replicate 4 (⟨50, 50, 50⟩ : Color8))) := by
  rw [show (19 / 20 : ℚ) = mkRat 19 20 from by rw [mkRat_eq]; norm_num,
    show (1 / 10 : ℚ) = mkRat 1 10 from by rw [mkRat_eq]; norm_num]
  decide

lemma get_dark_channel_st_fst (s : Store) (h w imgIdx : ℕ) (window_size : ℤ) :
    ∃ u, (get_dark_channel_st s h w imgIdx window_size).1 = s ++ u :=
  ⟨_, rfl⟩

/-- C9: no stage mutates its input — in the store-passing rendering of
the four stage functions, every array present before a call (in
particular the image, dark-channel map, transmission map and
atmospheric-light vector the caller passed in) is unchanged after it;
each stage only appends freshly allocated arrays. -/
theorem stages_preserve_inputs :
    (∀ (s : Store) (h w imgIdx : ℕ) (window_size : ℤ) (n : ℕ), n < s.length →
      ((get_dark_channel_st s h w imgIdx window_size).1).getD n [] = s.getD n []) ∧
    (∀ (s : Store) (h w imgIdx darkIdx n : ℕ), n < s.length →
      ((get_atmospheric_light_st s h w imgIdx darkIdx).1).getD n [] = s.getD n []) ∧
    (∀ (s : Store) (h w imgIdx alIdx : ℕ) (window_size : ℤ) (omega : ℚ)
        (n : ℕ), n < s.length →
      ((get_transmission_estimate_st s h w imgIdx alIdx window_size omega).1).getD
          n [] = s.getD n []) ∧
    (∀ (s : Store) (h w imgIdx tIdx alIdx : ℕ) (t0 : ℚ) (n : ℕ), n < s.length →
      ((get_recovered_image_st s h w imgIdx tIdx alIdx t0).1).getD n []
        = s.getD n []) := by
  refine ⟨?_, ?_, ?_, ?_⟩
  · intro s h w imgIdx window_size n hn
    exact store_getD_append s _ n hn
  · intro s h w imgIdx darkIdx n hn
    exact store_getD_append s _ n hn
  · intro s h w imgIdx alIdx window_size omega n hn
    unfold get_transmission_estimate_st
    dsimp only
    obtain ⟨u, hu⟩ := get_dark_channel_st_fst
      (s ++ [encodeImage (normalizedImage (decodeImage h w (s.getD imgIdx []))
        (decodeColor (s.getD alIdx [])))]) h w s.length window_size
    rcases hE : get_dark_channel_st
      (s ++ [encodeImage (normalizedImage (decodeImage h w (s.getD imgIdx []))
        (decodeColor (s.getD alIdx [])))]) h w s.length window_size with ⟨s2, res⟩
    rw [hE] at hu
    dsimp at hu
    cases res with
    | error e =>
      dsimp only
      rw [hu, List.append_assoc]
      exact store_getD_append s _ n hn
    | ok dIdx =>
      dsimp only
      rw [hu, List.append_assoc, List.append_assoc]
      exact store_getD_append s _ n hn
  · intro s h w imgIdx tIdx alIdx t0 n hn
    exact store_getD_append s _ n hn

/-- C9 witness: each stage applied to a concrete three-array store
leaves the first entry unchanged. -/
theorem stages_preserve_inputs_witness :
    0 < stC9.length ∧
    ((get_dark_channel_st stC9 1 1 0 1).1).getD 0 [] = stC9.getD 0 [] ∧
    ((get_atmospheric_light_st stC9 1 1 0 1).1).getD 0 [] = stC9.getD 0 [] ∧
    ((get_transmission_estimate_st stC9 1 1 0 2 1 (mkRat 19 20)).1).getD 0 []
      = stC9.getD 0 [] ∧
    ((get_recovered_image_st stC9 1 1 0 1 2 (mkRat 1 10)).1).getD 0 []
      = stC9.getD 0 [] :=
  ⟨by decide,
    stages_preserve_inputs.1 stC9 1 1 0 1 0 (by decide),
    stages_preserve_inputs.2.1 stC9 1 1 0 1 0 (by decide),
    stages_preserve_inputs.2.2.1 stC9 1 1 0 2 1 (mkRat 19 20) 0 (by decide),
    stages_preserve_inputs.2.2.2 stC9 1 1 0 1 2 (mkRat 1 10) 0 (by decide)⟩

/-- C4 witness: the error-free direction applied to a concrete
non-empty image and positive window size. -/
theorem dark_channel_invalid_argument_iff_witness :
    ¬((1 : ℤ) < 1 ∨ imgC2.height = 0 ∨ imgC2.width = 0) ∧
    DCP.get_dark_channel imgC2 1 = .ok (erode (minChannel imgC2) (1 : ℤ).toNat) :=
  ⟨by decide, (dark_channel_invalid_argument_iff imgC2 1).2 (by decide)⟩
